import Mathlib

/-!
Verification of the vgrain GRN-inference pipeline (src/code/main.py) against its
natural-language specification.

The file shallowly embeds the pipeline driver in main.py.  main.py itself only
composes collaborator functions imported from preprocessors / evaluators / model
/ loggers (whose sources are not part of this repository snapshot), so the
driver is embedded as a function over an explicit record of those collaborators,
and the collaborators whose behaviour the claims depend on are modelled
separately from the specification text (their doc comments say so).

Conventions: real-valued numeric data is modelled over the rationals wherever
the corresponding claim is about exact data flow, and over the reals for the
analytic sigmoid bound; matrices over a fixed gene count g are functions
Fin g -> Fin g -> the scalar type; the ambient random source of the noisy graph
construction is passed explicitly.
-/

namespace VGrain

/-- Expression data: rows are samples, columns are genes (main.py uses a dense
numeric matrix loaded by preprocess_data). -/
abbrev ExprData : Type := List (List ℚ)

/-- Gene names, one per expression column. -/
abbrev GeneNames : Type := List String

/-- Square gene-by-gene rational matrix of a fixed size g. -/
abbrev Mat (g : ℕ) : Type := Fin g → Fin g → ℚ

/-- Configuration values read from config.json in main.py (the fields the
studied claims depend on). -/
structure Config where
  expr_file : String
  network_file : String
  threshold : ℚ
  noise_factor : ℚ
  dropout : ℚ
  k_fraction : ℚ
  num_epochs : ℕ

/-- Collaborator functions imported by main.py from preprocessors; main.py
treats them as black boxes, so the driver embedding is parametric in them.
R is the type of the random source consumed by the noisy construction. -/
structure Collab (g : ℕ) (R : Type) where
  preprocess_data : String → ExprData × GeneNames
  construct_adjacency_matrix_with_noise : ExprData → ℚ → ℚ → R → Mat g
  construct_adjacency_matrix : ExprData → ℚ → Mat g
  create_true_adjacency_matrix : String → GeneNames → Mat g

/-- Edge index from an adjacency matrix, as in main.py:
np.where(adj_matrix == 1) enumerates, in row-major order, the positions whose
entry equals 1; the resulting (source, target) pairs feed the model. -/
def edge_index_of {g : ℕ} (adj : Mat g) : List (Fin g × Fin g) :=
  (List.finRange g).flatMap fun i =>
    ((List.finRange g).filter fun j => decide (adj i j = 1)).map fun j => (i, j)

/-- The data computed by the preprocessing block (expression data, gene names,
noisy adjacency, edge index, true adjacency). -/
structure Prep (g : ℕ) where
  expr : ExprData
  gene_names : GeneNames
  adj : Mat g
  edge_index : List (Fin g × Fin g)
  true_adj : Mat g

/-- Transcription of the data-preparation prefix of objective (main.py lines
62-67): preprocess_data(EXPR_FILE), construct_adjacency_matrix_with_noise(expr,
THRESHOLD, NOISE_FACTOR), edge_index from positions equal to 1, and
create_true_adjacency_matrix(NETWORK_FILE, gene_names). -/
def trialPrep {g : ℕ} {R : Type} (C : Collab g R) (cfg : Config) (rng : R) :
    Prep g :=
  let pg := C.preprocess_data cfg.expr_file
  let adj := C.construct_adjacency_matrix_with_noise pg.1 cfg.threshold
    cfg.noise_factor rng
  let ei := edge_index_of adj
  let ta := C.create_true_adjacency_matrix cfg.network_file pg.2
  ⟨pg.1, pg.2, adj, ei, ta⟩

/-- Transcription of the data-preparation block of the final run (main.py lines
126-132), which repeats the same calls with the same configuration arguments. -/
def finalPrep {g : ℕ} {R : Type} (C : Collab g R) (cfg : Config) (rng : R) :
    Prep g :=
  let pg := C.preprocess_data cfg.expr_file
  let adj := C.construct_adjacency_matrix_with_noise pg.1 cfg.threshold
    cfg.noise_factor rng
  let ei := edge_index_of adj
  let ta := C.create_true_adjacency_matrix cfg.network_file pg.2
  ⟨pg.1, pg.2, adj, ei, ta⟩

/-- Transcription of main.py line 206: the PCC baseline handed to
calculate_whole_network_overlap is construct_adjacency_matrix(expr_data,
threshold=THRESHOLD), built from the same preprocessed expression data. -/
def finalPcc {g : ℕ} {R : Type} (C : Collab g R) (cfg : Config) : Mat g :=
  C.construct_adjacency_matrix (C.preprocess_data cfg.expr_file).1 cfg.threshold

/-- Claim C2: the expression data, noisy adjacency, edge index and true
adjacency computed inside the per-trial objective are produced by the identical
sequence of calls with the identical configuration arguments as the
recomputation in the final fixed run, so the two code paths are equal as
functions of the collaborators, the configuration and the random source. -/
theorem trial_and_final_preprocessing_agree {g : ℕ} {R : Type}
    (C : Collab g R) (cfg : Config) (rng : R) :
    trialPrep C cfg rng = finalPrep C cfg rng := rfl

/-- Claim C3: a pair (i, j) occurs in the edge index derived from an adjacency
matrix if and only if the adjacency entry at (i, j) equals 1, and in both the
per-trial path and the final run the edge index is recomputed from the
adjacency matrix constructed there (never reused across adjacency changes). -/
theorem edge_index_characterization {g : ℕ} {R : Type} :
    (∀ (adj : Mat g) (i j : Fin g),
        (i, j) ∈ edge_index_of adj ↔ adj i j = 1) ∧
    (∀ (C : Collab g R) (cfg : Config) (rng : R),
        (trialPrep C cfg rng).edge_index
            = edge_index_of (trialPrep C cfg rng).adj ∧
        (finalPrep C cfg rng).edge_index
            = edge_index_of (finalPrep C cfg rng).adj) := by
  constructor
  · intro adj i j
    simp [edge_index_of, List.mem_flatMap, List.mem_filter, List.mem_map,
      List.mem_finRange]
  · intro C cfg rng
    exact ⟨rfl, rfl⟩

/-- Claim C5: the correlation-based baseline handed to the whole-network
overlap comparison is built by construct_adjacency_matrix (no noise) from the
same expression data and the same threshold that feed the noisy training
adjacency, and it does not depend on the configured noise factor. -/
theorem pcc_baseline_noiseless_and_noise_independent {g : ℕ} {R : Type}
    (C : Collab g R) (cfg : Config) (rng : R) (x y : ℚ) :
    finalPcc C cfg
        = C.construct_adjacency_matrix (finalPrep C cfg rng).expr
            cfg.threshold ∧
    (finalPrep C cfg rng).adj
        = C.construct_adjacency_matrix_with_noise (finalPrep C cfg rng).expr
            cfg.threshold cfg.noise_factor rng ∧
    finalPcc C { cfg with noise_factor := x }
        = finalPcc C { cfg with noise_factor := y } := by
  exact ⟨rfl, rfl, rfl⟩

/-- Hyperparameters supplied to one trial (the four values suggested in
objective). -/
structure Params where
  num_neurons : ℕ
  embedding_size : ℕ
  num_heads : ℕ
  learning_rate : ℚ
deriving DecidableEq, Inhabited

/-- The declared grid search space of main.py's tuning branch (the search_space
dict handed to GridSampler): num_neurons values. -/
def grid_num_neurons : List ℕ := [16, 32, 64, 128]

/-- Declared grid values for embedding_size. -/
def grid_embedding_size : List ℕ := [8, 16, 32, 64]

/-- Declared grid values for num_heads. -/
def grid_num_heads : List ℕ := [2, 4, 8, 16]

/-- Declared grid values for learning_rate (0.001 and 0.0005). -/
def grid_learning_rate : List ℚ := [1 / 1000, 1 / 2000]

/-- Modelled from the spec: the optuna GridSampler driving study.optimize is
not part of this repository snapshot; per the spec the search driver supplies a
deterministic, exhaustive enumeration of the hyperparameter grid to the
per-trial entry point.  gridTrials is that enumeration of the declared search
space. -/
def gridTrials : List Params :=
  grid_num_neurons.flatMap fun nn =>
    grid_embedding_size.flatMap fun es =>
      grid_num_heads.flatMap fun nh =>
        grid_learning_rate.map fun lr => ⟨nn, es, nh, lr⟩

/-- Fold that keeps the argument with the larger objective value, the running
best starting at x (helper for the best-trial selection). -/
def pickBest {α : Type} (v : α → ℚ) (x : α) (l : List α) : α :=
  l.foldl (fun a b => if v a < v b then b else a) x

/-- Modelled from the spec: study.best_trial.params of an optuna study created
with direction maximize selects the parameters of the trial whose objective
value is maximal over all completed trials; best_params realizes that selection
over the grid enumeration (first trial as the running best, the rest folded
in), v being the per-trial objective value (the ROC-AUC returned by
evaluate_model on that trial's trained model). -/
def best_params (v : Params → ℚ) : Params :=
  pickBest v (gridTrials.headI) gridTrials.tail

theorem pickBest_mem {α : Type} (v : α → ℚ) (x : α) (l : List α) :
    pickBest v x l ∈ x :: l := by
  induction l generalizing x with
  | nil => simp [pickBest]
  | cons b l ih =>
    simp only [pickBest, List.foldl_cons]
    have hmem := ih (if v x < v b then b else x)
    simp only [pickBest] at hmem
    rcases List.mem_cons.mp hmem with h1 | h1
    · rw [h1]
      split
      · exact List.mem_cons_of_mem _ (List.mem_cons_self _ _)
      · exact List.mem_cons_self _ _
    · exact List.mem_cons_of_mem _ (List.mem_cons_of_mem _ h1)

theorem pickBest_le {α : Type} (v : α → ℚ) (x : α) (l : List α) :
    ∀ y ∈ x :: l, v y ≤ v (pickBest v x l) := by
  induction l generalizing x with
  | nil =>
    intro y hy
    simp only [List.mem_cons, List.not_mem_nil, or_false] at hy
    simp [pickBest, hy]
  | cons b l ih =>
    intro y hy
    simp only [pickBest, List.foldl_cons]
    have step := ih (if v x < v b then b else x)
    simp only [pickBest] at step
    have hx : v x ≤ v (if v x < v b then b else x) := by
      split
      · exact le_of_lt (by assumption)
      · exact le_rfl
    have hb : v b ≤ v (if v x < v b then b else x) := by
      split
      · exact le_rfl
      · exact le_of_not_lt (by assumption)
    have htop := step _ (List.mem_cons_self _ _)
    rcases List.mem_cons.mp hy with h1 | h1
    · subst h1
      exact le_trans hx htop
    · rcases List.mem_cons.mp h1 with h2 | h2
      · subst h2
        exact le_trans hb htop
      · exact step y (List.mem_cons_of_mem _ h2)

/-- Claim C1: in tuning mode the search driver enumerates the declared
hyperparameter grid deterministically and exhaustively — every trial's
parameters come from the declared grid search space and every grid combination
is visited — and best_params is the parameter set of a trial whose objective
value v (the ROC-AUC of that trial) is maximal over all trials. -/
theorem grid_search_enumerates_and_selects_max :
    (∀ p ∈ gridTrials,
        p.num_neurons ∈ grid_num_neurons ∧
        p.embedding_size ∈ grid_embedding_size ∧
        p.num_heads ∈ grid_num_heads ∧
        p.learning_rate ∈ grid_learning_rate) ∧
    (∀ nn ∈ grid_num_neurons, ∀ es ∈ grid_embedding_size,
        ∀ nh ∈ grid_num_heads, ∀ lr ∈ grid_learning_rate,
        (⟨nn, es, nh, lr⟩ : Params) ∈ gridTrials) ∧
    (∀ v : Params → ℚ, best_params v ∈ gridTrials ∧
        ∀ p ∈ gridTrials, v p ≤ v (best_params v)) := by
  refine ⟨?_, ?_, ?_⟩
  · intro p hp
    simp only [gridTrials, List.mem_flatMap, List.mem_map] at hp
    obtain ⟨nn, hnn, es, hes, nh, hnh, lr, hlr, hp⟩ := hp
    subst hp
    exact ⟨hnn, hes, hnh, hlr⟩
  · intro nn hnn es hes nh hnh lr hlr
    simp only [gridTrials, List.mem_flatMap, List.mem_map]
    exact ⟨nn, hnn, es, hes, nh, hnh, lr, hlr, rfl⟩
  · intro v
    have hne : gridTrials ≠ [] := by decide
    have hcons : gridTrials = gridTrials.headI :: gridTrials.tail := by
      cases hg : gridTrials with
      | nil => exact absurd hg hne
      | cons a l => simp
    have h1 := pickBest_mem v gridTrials.headI gridTrials.tail
    have h2 := pickBest_le v gridTrials.headI gridTrials.tail
    constructor
    · rw [hcons]
      exact h1
    · intro p hp
      rw [hcons] at hp
      exact h2 p hp

/-- Concrete instantiation of the grid search theorem: the first grid point is
a member of the enumeration, its coordinates lie in the declared lists, and a
constant objective is maximized at best_params. -/
theorem grid_search_enumerates_and_selects_max_witness :
    ((⟨16, 8, 2, 1 / 1000⟩ : Params) ∈ gridTrials) ∧
    ((⟨16, 8, 2, 1 / 1000⟩ : Params).num_neurons ∈ grid_num_neurons) ∧
    ((fun _ : Params => (0 : ℚ)) (⟨16, 8, 2, 1 / 1000⟩ : Params)
        ≤ (fun _ : Params => (0 : ℚ)) (best_params fun _ => 0)) := by
  have hlr : (1 / 1000 : ℚ) ∈ grid_learning_rate := by
    simp [grid_learning_rate]
  have hmem := grid_search_enumerates_and_selects_max.2.1 16 (by decide)
    8 (by decide) 2 (by decide) (1 / 1000) hlr
  exact ⟨hmem, (grid_search_enumerates_and_selects_max.1 _ hmem).1,
    (grid_search_enumerates_and_selects_max.2.2 (fun _ => 0)).2 _ hmem⟩

/-- Arguments of one GAT_VGAE construction (the constructor's parameter list as
called from main.py, with the dropout value the model ends up with). -/
structure GAT_VGAE_Args where
  num_features : ℕ
  num_neurons : ℕ
  embedding_size : ℕ
  num_heads : ℕ
  num_nodes : ℕ
  dropout : ℚ
deriving DecidableEq

/-- Modelled from the spec: the GAT_VGAE constructor (model.py, whose source is
not in this snapshot) takes the five dimension arguments and an optional
dropout argument whose default value is internal to model.py; d0 stands for
that default, and an omitted dropout argument resolves to it. -/
def mk_GAT_VGAE (d0 : ℚ) (nf nn es nh nd : ℕ) (dropout : Option ℚ) :
    GAT_VGAE_Args :=
  ⟨nf, nn, es, nh, nd, dropout.getD d0⟩

/-- Transcription of the GAT_VGAE construction inside objective (main.py lines
74-80): num_features, the trial's num_neurons / embedding_size / num_heads,
num_nodes, and no dropout argument. -/
def trialModelArgs (d0 : ℚ) (p : Params) (numFeatures numNodes : ℕ) :
    GAT_VGAE_Args :=
  mk_GAT_VGAE d0 numFeatures p.num_neurons p.embedding_size p.num_heads
    numNodes none

/-- Transcription of the GAT_VGAE construction in the final run (main.py lines
140-147): the best_params fields plus dropout=DROPOUT. -/
def finalModelArgs (d0 : ℚ) (cfg : Config) (bp : Params)
    (numFeatures numNodes : ℕ) : GAT_VGAE_Args :=
  mk_GAT_VGAE d0 numFeatures bp.num_neurons bp.embedding_size bp.num_heads
    numNodes (some cfg.dropout)

/-- Claim C10: every GAT_VGAE constructed inside the per-trial objective omits
the dropout argument, so tuning trials run with the model's default dropout d0
(and not with the configured DROPOUT whenever that differs from the default),
while the final model is constructed with dropout=DROPOUT. -/
theorem dropout_only_in_final_run (d0 : ℚ) (cfg : Config) (p bp : Params)
    (numFeatures numNodes : ℕ) :
    (trialModelArgs d0 p numFeatures numNodes).dropout = d0 ∧
    (finalModelArgs d0 cfg bp numFeatures numNodes).dropout = cfg.dropout ∧
    (cfg.dropout ≠ d0 →
        (trialModelArgs d0 p numFeatures numNodes).dropout ≠ cfg.dropout) := by
  refine ⟨rfl, rfl, ?_⟩
  intro h hc
  exact h hc.symm

/-- Concrete instantiation of the dropout theorem at default 0 and configured
dropout 1/5. -/
theorem dropout_only_in_final_run_witness :
    ((1 / 5 : ℚ) ≠ 0) ∧
    (trialModelArgs 0 (⟨16, 8, 2, 1 / 1000⟩ : Params) 3 4).dropout
      ≠ (1 / 5 : ℚ) :=
  ⟨by norm_num,
   (dropout_only_in_final_run 0
      { expr_file := "e", network_file := "n", threshold := 1 / 2,
        noise_factor := 0, dropout := 1 / 5, k_fraction := 1 / 10,
        num_epochs := 1 }
      (⟨16, 8, 2, 1 / 1000⟩ : Params) (⟨16, 8, 2, 1 / 1000⟩ : Params)
      3 4).2.2 (show (1 / 5 : ℚ) ≠ 0 by norm_num)⟩

/-- The metric record returned by evaluate_model (roc_auc, precision, recall,
f1, epr, accuracy, number of ground-truth edges, number of nodes, overlap
count). -/
structure Metrics where
  roc_auc : ℚ
  prec : ℚ
  recl : ℚ
  f1 : ℚ
  epr : ℚ
  acc : ℚ
  num_gt_edges : ℕ
  num_nodes : ℕ
  overlap_count : ℕ

/-- Fallible view of the collaborators called by objective: each call either
returns a value or raises (Except models a Python exception).  M is the model
type; R the random source; E the error type. -/
structure FallibleCollab (g : ℕ) (R E M : Type) where
  preprocess_data : String → Except E (ExprData × GeneNames)
  construct_adjacency_matrix_with_noise :
    ExprData → ℚ → ℚ → R → Except E (Mat g)
  construct_adjacency_matrix : ExprData → ℚ → Except E (Mat g)
  create_true_adjacency_matrix : String → GeneNames → Except E (Mat g)
  mk_model : ℕ → ℕ → ℕ → ℕ → ℕ → Option ℚ → Except E M
  train_and_evaluate :
    M → List (Fin g × Fin g) → ExprData → Mat g → Mat g → ℕ → ℚ → Except E M
  forward : M → List (Fin g × Fin g) → ExprData → Except E (Mat g)
  evaluate_model : Mat g → Mat g → Except E Metrics
  accuracy_score : Mat g → Mat g → Except E ℚ
  calculate_early_precision_rate : Mat g → Mat g → Except E ℚ
  calculate_whole_network_overlap : Mat g → Mat g → Mat g → Except E (ℕ × ℕ)
  log_run_info : Params → Metrics → Except E Unit

/-- Transcription of objective (main.py lines 53-95) as a straight-line bind
chain: the source contains no try/except, so every collaborator call is bound
directly and any raised error short-circuits the rest of the trial.  The
GAT_VGAE construction passes no dropout argument (none). -/
def objectiveE {g : ℕ} {R E M : Type} (C : FallibleCollab g R E M)
    (cfg : Config) (rng : R) (p : Params) : Except E ℚ := do
  let pg ← C.preprocess_data cfg.expr_file
  let adj ← C.construct_adjacency_matrix_with_noise pg.1 cfg.threshold
    cfg.noise_factor rng
  let ei := edge_index_of adj
  let ta ← C.create_true_adjacency_matrix cfg.network_file pg.2
  let m0 ← C.mk_model (pg.1.headD []).length p.num_neurons p.embedding_size
    p.num_heads g none
  let m1 ← C.train_and_evaluate m0 ei pg.1 adj ta cfg.num_epochs
    p.learning_rate
  let recon ← C.forward m1 ei pg.1
  let mets ← C.evaluate_model ta recon
  let _ ← C.log_run_info p mets
  return mets.roc_auc

/-- Transcription of the main execution block after the search/fixed branch
(main.py lines 126-211) as a straight-line bind chain: recompute the data,
construct the final GAT_VGAE with dropout=DROPOUT, train, run the forward
pass, evaluate, compute the thresholded accuracy and the final EPR, build the
PCC baseline and run the whole-network overlap.  The source contains no
try/except here either, so every raised error short-circuits the rest of the
run. -/
def finalRunE {g : ℕ} {R E M : Type} (C : FallibleCollab g R E M)
    (cfg : Config) (rng : R) (bp : Params) :
    Except E (Metrics × ℚ × ℚ × (ℕ × ℕ)) := do
  let pg ← C.preprocess_data cfg.expr_file
  let adj ← C.construct_adjacency_matrix_with_noise pg.1 cfg.threshold
    cfg.noise_factor rng
  let ei := edge_index_of adj
  let ta ← C.create_true_adjacency_matrix cfg.network_file pg.2
  let m0 ← C.mk_model (pg.1.headD []).length bp.num_neurons bp.embedding_size
    bp.num_heads g (some cfg.dropout)
  let m1 ← C.train_and_evaluate m0 ei pg.1 adj ta cfg.num_epochs
    bp.learning_rate
  let recon ← C.forward m1 ei pg.1
  let mets ← C.evaluate_model ta recon
  let acc ← C.accuracy_score ta recon
  let epr_final ← C.calculate_early_precision_rate recon ta
  let pcc ← C.construct_adjacency_matrix pg.1 cfg.threshold
  let overlaps ← C.calculate_whole_network_overlap recon ta pcc
  return (mets, acc, epr_final, overlaps)

/-- Modelled from the spec: study.optimize(objective, n_trials) is called with
no catch/retry option, so the trials run sequentially and the first raised
error aborts the whole search, discarding no error and completing no later
trial. -/
def study_optimize {E : Type} (obj : Params → Except E ℚ) :
    List Params → Except E (List (Params × ℚ))
  | [] => .ok []
  | p :: rest => do
    let v ← obj p
    let others ← study_optimize obj rest
    return (p, v) :: others

theorem except_bind_ok {E α β : Type} (a : α) (f : α → Except E β) :
    ((Except.ok a : Except E α) >>= f) = f a := rfl

theorem except_bind_error {E α β : Type} (e : E) (f : α → Except E β) :
    ((Except.error e : Except E α) >>= f) = Except.error e := rfl

theorem study_optimize_error_of_mem {E : Type} (obj : Params → Except E ℚ)
    {trials : List Params} {p : Params} (hmem : p ∈ trials)
    (hf : ∃ e, obj p = .error e) :
    ∃ e2, study_optimize obj trials = .error e2 := by
  induction trials with
  | nil => cases hmem
  | cons a rest ih =>
    rcases List.mem_cons.mp hmem with h | h
    · subst h
      obtain ⟨e, he⟩ := hf
      exact ⟨e, by simp [study_optimize, he, except_bind_error]⟩
    · cases hfa : obj a with
      | error e => exact ⟨e, by simp [study_optimize, hfa, except_bind_error]⟩
      | ok v =>
        obtain ⟨e2, he2⟩ := ih h
        exact ⟨e2, by
          simp [study_optimize, hfa, except_bind_ok, he2, except_bind_error]⟩

/-- Claim C6: errors raised during a trial or the final run are never caught
and converted into default or placeholder metrics — neither objectiveE nor
finalRunE contains any handling, so if the calls leading up to training
succeed and training raises (for example on a non-finite loss), the objective
returns exactly that error, a grid search containing such a trial aborts with
an error rather than completing, and the final run likewise returns exactly
the error its training step raises. -/
theorem errors_propagate_uncaught {g : ℕ} {R E M : Type}
    (C : FallibleCollab g R E M) (cfg : Config) (rng : R) (p bp : Params)
    (pg : ExprData × GeneNames) (adj ta : Mat g) (m0 m0f : M) (e ef : E)
    (trials : List Params)
    (hpre : C.preprocess_data cfg.expr_file = .ok pg)
    (hadj : C.construct_adjacency_matrix_with_noise pg.1 cfg.threshold
        cfg.noise_factor rng = .ok adj)
    (hta : C.create_true_adjacency_matrix cfg.network_file pg.2 = .ok ta)
    (hm : C.mk_model (pg.1.headD []).length p.num_neurons p.embedding_size
        p.num_heads g none = .ok m0)
    (htrain : C.train_and_evaluate m0 (edge_index_of adj) pg.1 adj ta
        cfg.num_epochs p.learning_rate = .error e)
    (hmf : C.mk_model (pg.1.headD []).length bp.num_neurons bp.embedding_size
        bp.num_heads g (some cfg.dropout) = .ok m0f)
    (htrainf : C.train_and_evaluate m0f (edge_index_of adj) pg.1 adj ta
        cfg.num_epochs bp.learning_rate = .error ef)
    (hmem : p ∈ trials) :
    objectiveE C cfg rng p = .error e ∧
    (∃ e2, study_optimize (objectiveE C cfg rng) trials = .error e2) ∧
    finalRunE C cfg rng bp = .error ef := by
  have hobj : objectiveE C cfg rng p = .error e := by
    simp only [objectiveE, hpre, except_bind_ok, hadj, hta, hm, htrain,
      except_bind_error]
  have hfin : finalRunE C cfg rng bp = .error ef := by
    simp only [finalRunE, hpre, except_bind_ok, hadj, hta, hmf, htrainf,
      except_bind_error]
  exact ⟨hobj, study_optimize_error_of_mem _ hmem ⟨e, hobj⟩, hfin⟩

/-- Trivial concrete collaborators whose training step raises, used to
instantiate the error-propagation theorem. -/
def stubCollab : FallibleCollab 1 Unit String Unit where
  preprocess_data := fun _ => .ok ([[1]], ["g1"])
  construct_adjacency_matrix_with_noise := fun _ _ _ _ => .ok fun _ _ => 1
  construct_adjacency_matrix := fun _ _ => .ok fun _ _ => 1
  create_true_adjacency_matrix := fun _ _ => .ok fun _ _ => 1
  mk_model := fun _ _ _ _ _ _ => .ok ()
  train_and_evaluate := fun _ _ _ _ _ _ _ => .error "nonfinite loss"
  forward := fun _ _ _ => .ok fun _ _ => 1
  evaluate_model := fun _ _ =>
    .ok ⟨1, 1, 1, 1, 1, 1, 1, 1, 1⟩
  accuracy_score := fun _ _ => .ok 1
  calculate_early_precision_rate := fun _ _ => .ok 1
  calculate_whole_network_overlap := fun _ _ _ => .ok (1, 1)
  log_run_info := fun _ _ => .ok ()

/-- Concrete configuration used by the witness instantiations. -/
def stubConfig : Config :=
  ⟨"e", "n", 1 / 2, 0, 1 / 5, 1 / 10, 1⟩

/-- Concrete instantiation of the error-propagation theorem: with the stub
collaborators whose training raises, the objective returns that very error,
the single-trial search aborts, and the final run returns the error too. -/
theorem errors_propagate_uncaught_witness :
    objectiveE stubCollab stubConfig () (⟨16, 8, 2, 1 / 1000⟩ : Params)
        = .error "nonfinite loss" ∧
    (∃ e2, study_optimize (objectiveE stubCollab stubConfig ())
        [(⟨16, 8, 2, 1 / 1000⟩ : Params)] = .error e2) ∧
    finalRunE stubCollab stubConfig () (⟨16, 8, 2, 1 / 1000⟩ : Params)
        = .error "nonfinite loss" :=
  errors_propagate_uncaught stubCollab stubConfig ()
    (⟨16, 8, 2, 1 / 1000⟩ : Params) (⟨16, 8, 2, 1 / 1000⟩ : Params)
    ([[1]], ["g1"]) (fun _ _ => 1) (fun _ _ => 1) () ()
    "nonfinite loss" "nonfinite loss" [(⟨16, 8, 2, 1 / 1000⟩ : Params)]
    rfl rfl rfl rfl rfl rfl rfl (by simp)

/-- Mean of a list of rationals (0 for the empty list). -/
def listMean (l : List ℚ) : ℚ := l.sum / l.length

/-- Centered product sum of two equally long lists, the covariance numerator
of the Pearson correlation. -/
def covList (xs ys : List ℚ) : ℚ :=
  ((xs.zip ys).map fun q => (q.1 - listMean xs) * (q.2 - listMean ys)).sum

/-- Centered square sum, the variance numerator. -/
def varList (xs : List ℚ) : ℚ := covList xs xs

/-- Column j of the expression matrix (the sample values of gene j). -/
def geneColumn (expr : ExprData) (j : ℕ) : List ℚ :=
  expr.map fun row => row.getD j 0

/-- Modelled from the spec: construct_adjacency_matrix (preprocessors, whose
source is not in this snapshot) computes pairwise Pearson correlation across
gene columns and sets entry (i, j) to 1 when i ≠ j and the absolute
correlation exceeds the threshold, else 0.  Over the rationals the square-root
free test cov(i,j)^2 > t^2 * var(i) * var(j) encodes abs corr > t (for t ≥ 0
and positive variances). -/
def construct_adjacency_matrix (g : ℕ) (expr : ExprData) (t : ℚ) : Mat g :=
  fun i j =>
    if i ≠ j ∧
        covList (geneColumn expr i.val) (geneColumn expr j.val) ^ 2 >
          t ^ 2 * varList (geneColumn expr i.val) *
            varList (geneColumn expr j.val)
    then 1 else 0

/-- Modelled from the spec: construct_adjacency_matrix_with_noise first builds
the noiseless thresholded matrix, then flips each off-diagonal entry 0↔1
exactly when a fresh uniform draw in [0,1) falls below the noise factor; one
draw per unordered pair keeps the flips symmetric. -/
def construct_adjacency_matrix_with_noise (g : ℕ) (expr : ExprData) (t : ℚ)
    (nf : ℚ) (rng : ℕ → ℕ → NNRat) : Mat g :=
  fun i j =>
    if i = j then construct_adjacency_matrix g expr t i j
    else if (rng (min i.val j.val) (max i.val j.val) : ℚ) < nf then
      1 - construct_adjacency_matrix g expr t i j
    else construct_adjacency_matrix g expr t i j

/-- Claim C8: for every expression matrix and every threshold in [0,1],
constructing the adjacency matrix with noise factor 0 yields exactly the
noiseless matrix (noise factor 0 is a no-op, whatever the random draws are). -/
theorem noise_factor_zero_is_noop (g : ℕ) (expr : ExprData) (t : ℚ)
    (rng : ℕ → ℕ → NNRat) (ht0 : 0 ≤ t) (ht1 : t ≤ 1) :
    construct_adjacency_matrix_with_noise g expr t 0 rng
      = construct_adjacency_matrix g expr t := by
  funext i j
  by_cases h : i = j
  · simp [construct_adjacency_matrix_with_noise, h]
  · have hge : (0 : ℚ) ≤ (rng (min i.val j.val) (max i.val j.val) : ℚ) :=
      NNRat.cast_nonneg _
    simp [construct_adjacency_matrix_with_noise, h, not_lt.mpr hge]

/-- Concrete instantiation of the noise no-op theorem on a 2-gene expression
matrix at threshold 1/2. -/
theorem noise_factor_zero_is_noop_witness :
    (0 ≤ (1 / 2 : ℚ)) ∧ ((1 / 2 : ℚ) ≤ 1) ∧
    construct_adjacency_matrix_with_noise 2 [[1, 2], [2, 1]] (1 / 2) 0
        (fun _ _ => 0)
      = construct_adjacency_matrix 2 [[1, 2], [2, 1]] (1 / 2) :=
  ⟨by norm_num, by norm_num,
   noise_factor_zero_is_noop 2 [[1, 2], [2, 1]] (1 / 2) (fun _ _ => 0)
     (by norm_num) (by norm_num)⟩

/-- Ground-truth edges as unordered pairs: positions i < j with a 1 entry. -/
def ground_truth_edges (g : ℕ) (t : Mat g) : List (Fin g × Fin g) :=
  (List.finRange g).flatMap fun i =>
    ((List.finRange g).filter fun j =>
        decide (i < j) && decide (t i j = 1)).map fun j => (i, j)

/-- Candidate edges with their reconstructed scores: every unordered pair
i < j (self-pairs excluded) scored by the reconstructed probability. -/
def predicted_edges (g : ℕ) (r : Mat g) : List ((Fin g × Fin g) × ℚ) :=
  (List.finRange g).flatMap fun i =>
    ((List.finRange g).filter fun j => decide (i < j)).map fun j =>
      ((i, j), r i j)

/-- Modelled from the spec: calculate_early_precision_rate (evaluators, whose
source is not in this snapshot) ranks the unordered candidate pairs by score,
takes the top k = floor(kFraction * numGroundTruthEdges), and returns the
count of those present in the ground truth divided by k — returning 0 when
k = 0 instead of dividing. -/
def calculate_early_precision_rate (g : ℕ) (r t : Mat g) (kFraction : ℚ) :
    ℚ :=
  let nGT := (ground_truth_edges g t).length
  let k := (⌊kFraction * nGT⌋).toNat
  if k = 0 then 0
  else
    let ranked := (predicted_edges g r).mergeSort fun a b => decide (b.2 ≤ a.2)
    let top := ranked.take k
    ((top.countP fun q => decide (t q.1.1 q.1.2 = 1)) : ℚ) / k

/-- Claim C9: whenever the top-k cutoff k = floor(kFraction * number of
ground-truth edges) is 0 (for example when kFraction is 0 or there are no
ground-truth edges), the early-precision-rate computation returns 0 through
its k = 0 guard and never divides by zero. -/
theorem epr_returns_zero_when_k_zero (g : ℕ) (r t : Mat g) (kFraction : ℚ)
    (hk : (⌊kFraction * ((ground_truth_edges g t).length : ℚ)⌋).toNat = 0) :
    calculate_early_precision_rate g r t kFraction = 0 := by
  simp [calculate_early_precision_rate, hk]

/-- Concrete instantiation of the EPR theorem: one node, no ground-truth
edges, kFraction 1/2, so k = 0 and the result is 0. -/
theorem epr_returns_zero_when_k_zero_witness :
    (⌊(1 / 2 : ℚ) *
        ((ground_truth_edges 1 (fun _ _ => 0)).length : ℚ)⌋).toNat = 0 ∧
    calculate_early_precision_rate 1 (fun _ _ => 0) (fun _ _ => 0) (1 / 2)
      = 0 := by
  have hlen : (ground_truth_edges 1 (fun _ _ => (0 : ℚ))).length = 0 := rfl
  have hk : (⌊(1 / 2 : ℚ) *
      ((ground_truth_edges 1 (fun _ _ => 0)).length : ℚ)⌋).toNat = 0 := by
    rw [hlen]
    simp
  exact ⟨hk, epr_returns_zero_when_k_zero 1 (fun _ _ => 0) (fun _ _ => 0)
    (1 / 2) hk⟩

/-- Logistic sigmoid over the reals. -/
noncomputable def sigmoid (x : ℝ) : ℝ := 1 / (1 + Real.exp (-x))

/-- Modelled from the spec: the inner-product decoder of GAT_VGAE (model.py,
whose source is not in this snapshot) maps the per-node latent vectors z to
the dense matrix sigmoid of z times z transposed, entry (i, j) being the
sigmoid of the dot product of the latent vectors of nodes i and j. -/
noncomputable def inner_product_decoder {n d : ℕ} (z : Fin n → Fin d → ℝ) :
    Fin n → Fin n → ℝ :=
  fun i j => sigmoid (∑ k, z i k * z j k)

/-- Modelled from the spec: the forward pass of GAT_VGAE is the attention
encoder producing per-node latent vectors (here an arbitrary function of the
edge index and the node features, so the theorem covers every encoder)
followed by the inner-product decoder; the result is indexed by
Fin n × Fin n, an n-by-n matrix. -/
noncomputable def GAT_VGAE_forward {n d nf : ℕ}
    (encode : List (Fin n × Fin n) → (Fin n → Fin nf → ℝ) →
      (Fin n → Fin d → ℝ))
    (edgeIndex : List (Fin n × Fin n)) (features : Fin n → Fin nf → ℝ) :
    Fin n → Fin n → ℝ :=
  inner_product_decoder (encode edgeIndex features)

/-- Claim C7: for every encoder, edge index and feature matrix, every entry of
the n-by-n matrix returned by the model's forward pass lies in [0, 1] (the
reconstructed adjacency is a probability matrix). -/
theorem forward_output_entries_in_unit_interval {n d nf : ℕ}
    (encode : List (Fin n × Fin n) → (Fin n → Fin nf → ℝ) →
      (Fin n → Fin d → ℝ))
    (edgeIndex : List (Fin n × Fin n)) (features : Fin n → Fin nf → ℝ)
    (i j : Fin n) :
    0 ≤ GAT_VGAE_forward encode edgeIndex features i j ∧
    GAT_VGAE_forward encode edgeIndex features i j ≤ 1 := by
  have hexp : 0 < Real.exp
      (-(∑ k, encode edgeIndex features i k * encode edgeIndex features j k)) :=
    Real.exp_pos _
  unfold GAT_VGAE_forward inner_product_decoder sigmoid
  constructor
  · positivity
  · rw [div_le_one (by linarith)]
    linarith

/-- Row-major flattening of a square matrix, as numpy's flatten produces it. -/
def flatten {g : ℕ} (m : Mat g) : List ℚ :=
  (List.finRange g).flatMap fun i => (List.finRange g).map (m i)

/-- Binarization at the strict 0.5 threshold, the model of
(pred_flat > 0.5).astype(int). -/
def binarize (l : List ℚ) : List ℚ :=
  l.map fun x => if 1 / 2 < x then 1 else 0

/-- Modelled from sklearn's documented semantics: accuracy_score(y_true,
y_pred) is the number of positions where the two parallel sequences agree,
divided by the number of positions. -/
def accuracy_score (yt yp : List ℚ) : ℚ :=
  (((yt.zip yp).countP fun q => decide (q.1 = q.2)) : ℚ) / yt.length

/-- Transcription of main.py lines 169-171: flatten the true adjacency and the
reconstructed adjacency, binarize the predictions at the strict 0.5 threshold,
and take accuracy_score of the parallel flat sequences. -/
def final_accuracy {g : ℕ} (t r : Mat g) : ℚ :=
  accuracy_score (flatten t) (binarize (flatten r))

theorem binarize_flatten {g : ℕ} (r : Mat g) :
    binarize (flatten r) = flatten fun i j => if 1 / 2 < r i j then 1 else 0 := by
  simp only [binarize, flatten, List.map_flatMap, List.map_map]
  rfl

theorem zip_flatten {g : ℕ} (A B : Mat g) :
    (flatten A).zip (flatten B)
      = (List.finRange g).flatMap fun i =>
          (List.finRange g).map fun j => (A i j, B i j) := by
  suffices h : ∀ is : List (Fin g),
      ((is.flatMap fun i => (List.finRange g).map (A i)).zip
          (is.flatMap fun i => (List.finRange g).map (B i)))
        = is.flatMap fun i => (List.finRange g).map fun j => (A i j, B i j) by
    exact h _
  intro is
  induction is with
  | nil => rfl
  | cons a l ih =>
    simp only [List.flatMap_cons]
    rw [List.zip_append (by simp), ih, List.zip_map']

theorem countP_eq_sum_ite {α : Type} (l : List α) (P : α → Prop)
    [DecidablePred P] :
    (l.countP fun a => decide (P a))
      = (l.map fun a => if P a then 1 else 0).sum := by
  induction l with
  | nil => rfl
  | cons a l ih =>
    rw [List.countP_cons, List.map_cons, List.sum_cons, ih]
    by_cases h : P a <;> simp [h, Nat.add_comm]

theorem countP_zip_flatten {g : ℕ} (A B : Mat g) :
    (((flatten A).zip (flatten B)).countP fun q => decide (q.1 = q.2))
      = ∑ i : Fin g, ∑ j : Fin g, if A i j = B i j then 1 else 0 := by
  rw [zip_flatten, List.flatMap_def, List.countP_flatten, List.map_map,
    Fin.sum_univ_def]
  refine congrArg List.sum (List.map_congr_left fun i _ => ?_)
  simp only [Function.comp_def, List.countP_map, Fin.sum_univ_def]
  rw [countP_eq_sum_ite (List.finRange g) fun j => A i j = B i j]

theorem flatten_length {g : ℕ} (m : Mat g) : (flatten m).length = g * g := by
  simp [flatten, List.length_flatMap, List.map_map, Function.comp_def,
    List.sum_replicate, smul_eq_mul]

/-- Claim C4: the reported final accuracy equals the fraction of positions,
over all g-by-g flattened entries of the true adjacency matrix (diagonal
included), at which the ground-truth binary label equals the binarized
prediction (reconstructed probability strictly above 0.5 mapped to 1, else
0). -/
theorem final_accuracy_is_fraction_of_matches {g : ℕ} (t r : Mat g) :
    final_accuracy t r
      = (∑ i : Fin g, ∑ j : Fin g,
          if t i j = (if 1 / 2 < r i j then (1 : ℚ) else 0) then (1 : ℚ)
          else 0)
        / ((g : ℚ) * g) := by
  unfold final_accuracy accuracy_score
  rw [binarize_flatten, countP_zip_flatten, flatten_length]
  push_cast
  ring_nf

end VGrain
